import Mathlib

/-!
Verification development for the sharded CSV persistence layer of the
cv-matching repository (`src/modules/github_utils.py`).

The Python module stores candidate-screening results and job positions as
CSV shards in a remote GitHub repository, using the Contents API
(`GET` for sha/metadata/content, `PUT` guarded by the sha as a version
token) plus the raw-content endpoint for oversized files.  This file is a
shallow embedding of the functions the frozen claims are about:

* `deduplicate_candidates`  — `_deduplicate_candidates` (lines 110-168),
  specialised to frames that carry the results schema columns
  ("Candidate Email", "Job Position", "Candidate Name", "Phone" all
  present), which is the shape every results shard has.
* `get_results_filename`    — lines 171-186.
* `save_results_to_github`  — lines 189-344 (append / merge path).
* `update_results_in_github`— lines 831-955 (replace path).
* `delete_job_position_from_github` — lines 769-828.
* `load_all_results_from_github` and `_fetch_csv_from_url` — lines 433-550.

Rows are typed records; a string field models a CSV cell, with the empty
string standing for a missing value (pandas `NaN`/`""`, which the source
itself conflates via `notna() & (col != "")`).  The remote backend is
modelled as an explicit trace of per-attempt responses that the retry
loops consume; outcomes record the result together with the observable
effects (requests made, payloads PUT, sleeps performed), so theorems can
speak about "no network call" or "no write" directly.  Exception paths of
the source (`Timeout`, `RequestException`, generic `Exception`) appear as
explicit trace steps.
-/

/-- A row of a results shard.  `name`, `email`, `phone`, `position` model
the columns "Candidate Name", "Candidate Email", "Phone", "Job Position";
`extra` stands for the remaining columns of `RESULTS_COLUMNS`, which the
persistence layer moves around but never inspects. -/
structure CandRow where
  name : String
  email : String
  phone : String
  position : String
  extra : String
deriving DecidableEq

/-- A row of the job-positions shard: "Job Position", "Job ID", and the
remaining columns bundled as `extra`. -/
structure PosRow where
  position : String
  jobId : String
  extra : String
deriving DecidableEq

/-- `RESULTS_COLUMNS` of the source (lines 88-94). -/
def RESULTS_COLUMNS : List String :=
  ["Candidate Name", "Candidate Email", "Phone", "Job Position",
   "Match Score", "AI Summary", "Strengths", "Weaknesses", "Gaps",
   "Latest Job Title", "Latest Company", "Education", "University", "Major",
   "Kalibrr Profile", "Application Link", "Resume Link",
   "Recruiter Feedback", "Shortlisted", "Candidate Status",
   "Interview Status", "Rejection Reason", "Date Processed"]

/-- `GITHUB_CONTENTS_API_SIZE_LIMIT = 1_000_000` (line 101). -/
def GITHUB_CONTENTS_API_SIZE_LIMIT : Nat := 1000000

/-- `has_email` test of `_deduplicate_candidates` (line 131):
`notna() & (email != "")`, with the empty string modelling NaN. -/
def hasEmail (r : CandRow) : Bool := r.email != ""

/-- Dedup key for rows with an email: subset `["Candidate Email", "Job Position"]`
(line 137). -/
def keyE (r : CandRow) : String × String := (r.email, r.position)

/-- Dedup key for rows without an email: subset
`["Candidate Name", "Phone", "Job Position"]` (line 148). -/
def keyN (r : CandRow) : String × String × String := (r.name, r.phone, r.position)

/-- The identity key a row is deduplicated under: (email, position) when the
email is non-empty, else (name, phone, position). -/
def rowKey (r : CandRow) : (String × String) ⊕ (String × String × String) :=
  if hasEmail r then Sum.inl (keyE r) else Sum.inr (keyN r)

/-- `pandas.DataFrame.drop_duplicates(subset, keep := first)` restricted to the
key function `K`: keeps each element whose key has not been seen yet,
preserving order.  `seen` accumulates the keys already kept. -/
def firstOccAux {α κ : Type} [DecidableEq κ] (K : α → κ) : List α → List κ → List α
  | [], _ => []
  | x :: xs, seen =>
    if K x ∈ seen then firstOccAux K xs seen
    else x :: firstOccAux K xs (K x :: seen)

/-- Keep the first occurrence per key, in order. -/
def dropDupFirst {α κ : Type} [DecidableEq κ] (K : α → κ) (l : List α) : List α :=
  firstOccAux K l []

/-- Order on indexed rows by original index, mirroring
`sorted(keep_email_indices + keep_name_indices)` (line 162). -/
def idxLe (a b : Nat × CandRow) : Prop := a.1 ≤ b.1

instance : DecidableRel idxLe := fun a b => Nat.decLe a.1 b.1

instance : IsTotal (Nat × CandRow) idxLe := ⟨fun a b => Nat.le_total a.1 b.1⟩

instance : IsTrans (Nat × CandRow) idxLe := ⟨fun _ _ _ h h' => Nat.le_trans h h'⟩

/-- `_deduplicate_candidates` (lines 110-168) for a frame with the results
schema: rows with a non-empty email and rows without one are partitioned,
each partition is deduplicated by its own key with `keep := first`, and the
surviving original indices are re-combined in sorted order
(`sorted(keep_email_indices + keep_name_indices)`, then `df.loc[...]`). -/
def deduplicate_candidates (rows : List CandRow) : List CandRow :=
  if rows = [] then rows
  else
    let indexed := rows.enum
    let withEmail := indexed.filter (fun p => hasEmail p.2)
    let withoutEmail := indexed.filter (fun p => !hasEmail p.2)
    let keepEmail := dropDupFirst (fun p => keyE p.2) withEmail
    let keepName := dropDupFirst (fun p => keyN p.2) withoutEmail
    let kept := List.insertionSort idxLe (keepEmail ++ keepName)
    kept.map Prod.snd

/-- `RESULTS_DIR = "results"` (line 107). -/
def RESULTS_DIR : String := "results"

/-- One pass of a run-collapsing regex substitution: every maximal run of
characters satisfying `p` is replaced by the single character `rep`
(the behaviour of `re.sub(pattern+, rep, s)`).  The boolean state records
whether the previous character was part of a run. -/
def collapseRunsAux (p : Char → Bool) (rep : Char) : Bool → List Char → List Char
  | _, [] => []
  | inRun, c :: cs =>
    if p c then
      if inRun then collapseRunsAux p rep true cs
      else rep :: collapseRunsAux p rep true cs
    else c :: collapseRunsAux p rep false cs

/-- `re.sub` of a maximal `p`-run by `rep`. -/
def collapseRuns (p : Char → Bool) (rep : Char) (l : List Char) : List Char :=
  collapseRunsAux p rep false l

/-- The slug built by `get_results_filename` (lines 183-185):
`re.sub(non-word-non-space, empty)` then `re.sub(whitespace-run, underscore)`
then `re.sub(underscore-run, underscore)`. -/
def slugChars (jobPosition : String) : List Char :=
  let s1 := jobPosition.toList.filter (fun c => c.isAlphanum || c == '_' || c.isWhitespace)
  let s2 := collapseRuns (fun c => c.isWhitespace) '_' s1
  collapseRuns (fun c => c == '_') '_' s2

/-- `get_results_filename` (lines 171-186): sanitise the job-position name and
compose `results/results_<slug>.csv`. -/
def get_results_filename (jobPosition : String) : String :=
  RESULTS_DIR ++ ("/results_") ++ String.mk (slugChars jobPosition) ++ (".csv")

/-- Double the quotes inside a CSV field (pandas `to_csv` quoting). -/
def escapeQuotes : List Char → List Char
  | [] => []
  | c :: cs => if c = '"' then '"' :: '"' :: escapeQuotes cs else c :: escapeQuotes cs

/-- Quote a CSV field when it contains a delimiter, quote or newline. -/
def escapeField (s : String) : String :=
  if s.toList.any (fun c => c = ',' || c = '"' || c = '\n') then
    String.mk ('"' :: (escapeQuotes s.toList ++ ['"']))
  else s

/-- Serialise one results row (the four modelled columns, with `extra`
standing for the pre-joined remaining cells). -/
def serializeRow (r : CandRow) : String :=
  String.intercalate (",")
    [escapeField r.name, escapeField r.email, escapeField r.phone,
     escapeField r.position, escapeField r.extra]

/-- `df.to_csv(index=False)`: header line followed by one line per row.
A pure function of the row list — this is what makes the replace path's
payload depend only on the rows it is given. -/
def serializeCsv (rows : List CandRow) : String :=
  String.intercalate ("\n")
    (String.intercalate (",") ["Candidate Name", "Candidate Email", "Phone",
      "Job Position", "Extra"] :: rows.map serializeRow)

/-- Result of parsing fetched CSV text: rows, an empty file
(`pandas.errors.EmptyDataError`), or malformed content
(`ParserError`/`ValueError`). -/
inductive CsvData (α : Type)
  | rows (rs : List α)
  | empty
  | malformed
deriving DecidableEq

/-- Response of the Contents-API `GET` at the top of a save/update attempt:
`ok` is a 200 with the sha (version token), reported size, and the inline
`content` field when the backend includes it; `notFound` is a 404,
`unauthorized` a 401, `otherErr` any other status. -/
inductive GetResp (α : Type)
  | ok (sha : String) (size : Nat) (inline : Option (CsvData α))
  | notFound
  | unauthorized
  | otherErr (code : Nat)
deriving DecidableEq

/-- Response of the raw-content `GET` used for oversized shards. -/
inductive RawResp (α : Type)
  | ok (data : CsvData α)
  | err (code : Nat)
deriving DecidableEq

/-- Response of the guarded `PUT`: 200/201, a 409 version-token conflict, or
any other failure status. -/
inductive PutResp
  | ok
  | conflict
  | err (code : Nat)
deriving DecidableEq

/-- Behaviour of the backend during one attempt of a retry loop: either the
requests complete with the given responses, or the attempt raises
(`requests Timeout`, other `RequestException`, or a generic exception). -/
inductive AttemptStep (α : Type)
  | normal (g : GetResp α) (raw : RawResp α) (put : PutResp)
  | timeoutExc
  | netExc
  | otherExc
deriving DecidableEq

/-- Observable outcome of `save_results_to_github`: the returned boolean, the
resolved shard path, the number of Contents-API GETs and raw GETs issued,
the payload of every PUT issued (deduplicated row lists), the sleeps
performed between attempts (milliseconds), and whether the
"CRITICAL ... Data loss may occur!" branch was taken. -/
structure SaveOutcome where
  ok : Bool
  path : Option String
  gets : Nat
  raws : Nat
  puts : List (List CandRow)
  sleeps : List Nat
  dataLossLogged : Bool
deriving DecidableEq

/-- Lines 270-286 of the source, the merge performed inside the 200 branch of
an append attempt: when the existing shard parsed to a non-empty row list the
incoming rows are concatenated after it; an empty, unparseable or unfetched
existing payload leaves the incoming rows alone; in every case the result is
passed through `_deduplicate_candidates` with `keep := first`. -/
def mergeExisting (existing : Option (CsvData CandRow)) (incoming : List CandRow) :
    List CandRow :=
  match existing with
  | some (CsvData.rows old) =>
      if old.isEmpty then deduplicate_candidates incoming
      else deduplicate_candidates (old ++ incoming)
  | some CsvData.empty => deduplicate_candidates incoming
  | some CsvData.malformed => deduplicate_candidates incoming
  | none => deduplicate_candidates incoming

/-- The retry loop of `save_results_to_github` (lines 244-344), consuming one
`AttemptStep` per attempt with `df` the current in-memory frame (the source
mutates `df` across attempts, so a conflict retry re-merges the already
merged frame).  Fuel `n + 1` means `max_retries - attempt` attempts remain;
`attempt < max_retries - 1` is `n ≠ 0`.  A 409 sleeps 1 s and retries; a
timeout or network error sleeps 2 s and retries; any other exception and any
other PUT failure return `False` at once; a 401 on the GET returns `False`
with no PUT. -/
def saveLoop (df : List CandRow) : Nat → List (AttemptStep CandRow) → SaveOutcome
  | 0, _ => ⟨false, none, 0, 0, [], [], false⟩
  | _ + 1, [] => ⟨false, none, 0, 0, [], [], false⟩
  | n + 1, step :: rest =>
    match step with
    | AttemptStep.timeoutExc =>
      if n = 0 then ⟨false, none, 0, 0, [], [], false⟩
      else
        let o := saveLoop df n rest
        ⟨o.ok, o.path, o.gets, o.raws, o.puts, 2000 :: o.sleeps, o.dataLossLogged⟩
    | AttemptStep.netExc =>
      if n = 0 then ⟨false, none, 0, 0, [], [], false⟩
      else
        let o := saveLoop df n rest
        ⟨o.ok, o.path, o.gets, o.raws, o.puts, 2000 :: o.sleeps, o.dataLossLogged⟩
    | AttemptStep.otherExc => ⟨false, none, 0, 0, [], [], false⟩
    | AttemptStep.normal g raw put =>
      match g with
      | GetResp.unauthorized => ⟨false, none, 1, 0, [], [], false⟩
      | _ =>
        let fr : Option (CsvData CandRow) × Nat × Bool :=
          match g with
          | GetResp.ok _ size inline =>
            if decide (size > GITHUB_CONTENTS_API_SIZE_LIMIT) || inline.isNone then
              match raw with
              | RawResp.ok d => (some d, 1, false)
              | RawResp.err _ => (none, 1, true)
            else (inline, 0, false)
          | _ => (none, 0, false)
        let merged : List CandRow :=
          match g with
          | GetResp.ok _ _ _ => mergeExisting fr.1 df
          | _ => df
        match put with
        | PutResp.ok => ⟨true, none, 1, fr.2.1, [merged], [], fr.2.2⟩
        | PutResp.conflict =>
          if n = 0 then ⟨false, none, 1, fr.2.1, [merged], [], fr.2.2⟩
          else
            let o := saveLoop merged n rest
            ⟨o.ok, o.path, o.gets + 1, o.raws + fr.2.1, merged :: o.puts,
              1000 :: o.sleeps, fr.2.2 || o.dataLossLogged⟩
        | PutResp.err _ => ⟨false, none, 1, fr.2.1, [merged], [], fr.2.2⟩

/-- `save_results_to_github` (lines 189-344).  `df = none` models a `None`
frame; `cols` models `df.columns` (the validation and the fallback path
derivation inspect columns, not row values); `hasToken` is the presence of
`GITHUB_TOKEN`.  Validation (None / empty / missing required columns) and
path resolution happen before any request; the missing-token check also
returns before any request.  `max_retries` is the default 3. -/
def save_results_to_github (df : Option (List CandRow)) (cols : List String)
    (path : Option String) (jobPosition : Option String) (hasToken : Bool)
    (trace : List (AttemptStep CandRow)) : SaveOutcome :=
  match df with
  | none => ⟨false, none, 0, 0, [], [], false⟩
  | some rows =>
    if rows.isEmpty then ⟨false, none, 0, 0, [], [], false⟩
    else if ("Candidate Name") ∉ cols ∨ ("Job Position") ∉ cols then
      ⟨false, none, 0, 0, [], [], false⟩
    else
      let resolved : Option String :=
        match path with
        | some p => some p
        | none =>
          match jobPosition with
          | some jp => some (get_results_filename jp)
          | none =>
            if ("Job Position") ∈ cols then
              match rows with
              | r :: _ => some (get_results_filename r.position)
              | [] => none
            else none
      match resolved with
      | none => ⟨false, none, 0, 0, [], [], false⟩
      | some p =>
        if hasToken then
          let o := saveLoop rows 3 trace
          ⟨o.ok, some p, o.gets, o.raws, o.puts, o.sleeps, o.dataLossLogged⟩
        else ⟨false, some p, 0, 0, [], [], false⟩

/-- Observable outcome of `update_results_in_github`: the PUT payloads are
the serialised CSV strings (the source pre-encodes the frame once, before
the loop). -/
structure UpdOutcome where
  ok : Bool
  path : Option String
  gets : Nat
  puts : List String
  sleeps : List Nat
deriving DecidableEq

/-- The retry loop of `update_results_in_github` (lines 891-955).  The GET is
only used for the sha; the payload never changes.  A 409 sleeps
`0.5 * 2 ^ attempt` seconds and retries; timeouts and network errors back off
the same way; other exceptions and other PUT failures return `False` at
once; a 401 returns `False` with no PUT. -/
def updLoop (payload : String) : Nat → Nat → List (AttemptStep CandRow) → UpdOutcome
  | 0, _, _ => ⟨false, none, 0, [], []⟩
  | _ + 1, _, [] => ⟨false, none, 0, [], []⟩
  | n + 1, attempt, step :: rest =>
    match step with
    | AttemptStep.timeoutExc =>
      if n = 0 then ⟨false, none, 0, [], []⟩
      else
        let o := updLoop payload n (attempt + 1) rest
        ⟨o.ok, o.path, o.gets, o.puts, (500 * 2 ^ attempt) :: o.sleeps⟩
    | AttemptStep.netExc =>
      if n = 0 then ⟨false, none, 0, [], []⟩
      else
        let o := updLoop payload n (attempt + 1) rest
        ⟨o.ok, o.path, o.gets, o.puts, (500 * 2 ^ attempt) :: o.sleeps⟩
    | AttemptStep.otherExc => ⟨false, none, 0, [], []⟩
    | AttemptStep.normal g _ put =>
      match g with
      | GetResp.unauthorized => ⟨false, none, 1, [], []⟩
      | _ =>
        match put with
        | PutResp.ok => ⟨true, none, 1, [payload], []⟩
        | PutResp.conflict =>
          if n = 0 then ⟨false, none, 1, [payload], []⟩
          else
            let o := updLoop payload n (attempt + 1) rest
            ⟨o.ok, o.path, o.gets + 1, payload :: o.puts, (500 * 2 ^ attempt) :: o.sleeps⟩
        | PutResp.err _ => ⟨false, none, 1, [payload], []⟩

/-- `update_results_in_github` (lines 831-955), the replace path: validates
`None`/empty only (no required-column check), resolves the path the same way
as save, checks the token, pre-encodes the CSV once, then runs the retry
loop with the fixed payload.  `max_retries` is the default 3. -/
def update_results_in_github (df : Option (List CandRow)) (cols : List String)
    (path : Option String) (jobPosition : Option String) (hasToken : Bool)
    (trace : List (AttemptStep CandRow)) : UpdOutcome :=
  match df with
  | none => ⟨false, none, 0, [], []⟩
  | some rows =>
    if rows.isEmpty then ⟨false, none, 0, [], []⟩
    else
      let resolved : Option String :=
        match path with
        | some p => some p
        | none =>
          match jobPosition with
          | some jp => some (get_results_filename jp)
          | none =>
            if ("Job Position") ∈ cols then
              match rows with
              | r :: _ => some (get_results_filename r.position)
              | [] => none
            else none
      match resolved with
      | none => ⟨false, none, 0, [], []⟩
      | some p =>
        if hasToken then
          let payload := serializeCsv rows
          let o := updLoop payload 3 0 trace
          ⟨o.ok, some p, o.gets, o.puts, o.sleeps⟩
        else ⟨false, some p, 0, [], []⟩

/-- Observable outcome of `delete_job_position_from_github`. -/
structure DelOutcome where
  ok : Bool
  gets : Nat
  puts : List (List PosRow)
deriving DecidableEq

/-- `delete_job_position_from_github` (lines 769-828): a single GET (any
non-200 status fails the call), filtering out the rows whose "Job Position"
cell equals the argument, and a single guarded PUT with **no retry loop** —
a 409 conflict is reported as failure immediately.  An empty existing file
fails ("Cannot delete from empty file"); the source decodes `content`
unconditionally and parses it with only `EmptyDataError` handled, so a
withheld content field or malformed CSV raises and the call fails. -/
def delete_job_position_from_github (jobPosition : String) (hasToken : Bool)
    (g : GetResp PosRow) (put : PutResp) : DelOutcome :=
  if hasToken then
    match g with
    | GetResp.ok _ _ inline =>
      match inline with
      | some (CsvData.rows rs) =>
        let filtered := rs.filter (fun r => r.position != jobPosition)
        match put with
        | PutResp.ok => ⟨true, 1, [filtered]⟩
        | PutResp.conflict => ⟨false, 1, [filtered]⟩
        | PutResp.err _ => ⟨false, 1, [filtered]⟩
      | some CsvData.empty => ⟨false, 1, []⟩
      | some CsvData.malformed => ⟨false, 1, []⟩
      | none => ⟨false, 1, []⟩
    | _ => ⟨false, 1, []⟩
  else ⟨false, 0, []⟩

/-- Result of one download task of `load_all_results_from_github`: the HTTP
status of the raw fetch together with what the body parses to, or a network
error. -/
inductive FetchRes
  | httpOk (data : CsvData CandRow)
  | httpErr (code : Nat)
  | netErr
deriving DecidableEq

/-- `_fetch_csv_from_url` (lines 433-461): returns the parsed rows on a 200
with well-formed CSV, and `none` (skip) on empty CSV, malformed CSV, any
non-200 status, or a network error.  The ensure-columns step is the identity
on typed rows. -/
def fetch_csv_from_url (res : FetchRes) : Option (List CandRow) :=
  match res with
  | FetchRes.httpOk (CsvData.rows rs) => some rs
  | FetchRes.httpOk CsvData.empty => none
  | FetchRes.httpOk CsvData.malformed => none
  | FetchRes.httpErr _ => none
  | FetchRes.netErr => none

/-- `load_all_results_from_github` (lines 464-550): `listing = none` models a
failed or non-200 directory listing (empty frame); otherwise each download
task yields a `FetchRes`, failed or empty parses are skipped, and the
successful non-empty frames are concatenated and deduplicated.  The worker
pool only affects arrival order, which the claims do not depend on; the
tasks are modelled in listing order. -/
def load_all_results_from_github (listing : Option (List FetchRes)) : List CandRow :=
  match listing with
  | none => []
  | some tasks =>
    let dfs := tasks.filterMap (fun t =>
      match fetch_csv_from_url t with
      | some rs => if rs.isEmpty then none else some rs
      | none => none)
    if dfs.isEmpty then []
    else deduplicate_candidates dfs.flatten

/-- Sample rows for witnesses and counterexamples. -/
def jane : CandRow := ⟨"Jane Doe", "jane@x.com", "555", "Backend Engineer", "a"⟩

/-- A re-processed row with the same identity key as `jane` but different
name and payload. -/
def jane2 : CandRow := ⟨"Jane Doe2", "jane@x.com", "556", "Backend Engineer", "b"⟩

/-- A job-position row whose jobId is present, used to exhibit that deletion
matches on the name, not the jobId. -/
def posX : PosRow := ⟨"X", "J1", "d"⟩

/-- An attempt in which the shard exists with the given sha, parses empty,
and the guarded PUT comes back 409. -/
def conflictAttempt (sha : String) : AttemptStep CandRow :=
  AttemptStep.normal (GetResp.ok sha 10 (some CsvData.empty))
    (RawResp.ok CsvData.empty) PutResp.conflict

/-- An attempt in which the initial GET comes back 401. -/
def authAttempt : AttemptStep CandRow :=
  AttemptStep.normal GetResp.unauthorized (RawResp.ok CsvData.empty) PutResp.ok

/-- An attempt in which everything succeeds (the shard exists, small, with
content withheld irrelevant to update, and the PUT is accepted). -/
def okAttempt : AttemptStep CandRow :=
  AttemptStep.normal (GetResp.ok ("s") 10 none) (RawResp.ok CsvData.empty) PutResp.ok

/-! ### First-occurrence scans: basic lemmas -/

/-- The first-occurrence scan returns a subsequence of its input. -/
theorem firstOccAux_sublist {α κ : Type} [DecidableEq κ] (K : α → κ) :
    ∀ (l : List α) (seen : List κ), List.Sublist (firstOccAux K l seen) l := by
  intro l
  induction l with
  | nil => intro seen; simp [firstOccAux]
  | cons x xs ih =>
    intro seen
    rw [firstOccAux]
    by_cases h : K x ∈ seen
    · rw [if_pos h]; exact (ih seen).cons x
    · rw [if_neg h]; exact (ih (K x :: seen)).cons₂ x

/-- Members of the scan output come from the input. -/
theorem mem_of_mem_firstOccAux {α κ : Type} [DecidableEq κ] (K : α → κ)
    (l : List α) (seen : List κ) {x : α} (hx : x ∈ firstOccAux K l seen) : x ∈ l :=
  (firstOccAux_sublist K l seen).subset hx

/-- Scanning indexed rows and dropping the indices is the scan of the rows. -/
theorem firstOccAux_map_snd {κ : Type} [DecidableEq κ] (K : CandRow → κ) :
    ∀ (l : List (Nat × CandRow)) (seen : List κ),
      (firstOccAux (fun p => K p.2) l seen).map Prod.snd
        = firstOccAux K (l.map Prod.snd) seen := by
  intro l
  induction l with
  | nil => intro seen; rfl
  | cons x xs ih =>
    intro seen
    rw [List.map_cons, firstOccAux, firstOccAux]
    by_cases h : K x.2 ∈ seen
    · rw [if_pos h, if_pos h, ih]
    · rw [if_neg h, if_neg h, List.map_cons, ih]

/-- Sorting by index pulls a strictly minimal element, wherever it sits, to
the front. -/
theorem insertionSort_cons_middle (x : Nat × CandRow) :
    ∀ (A B : List (Nat × CandRow)), (∀ y ∈ A ++ B, x.1 < y.1) →
      List.insertionSort idxLe (A ++ x :: B) = x :: List.insertionSort idxLe (A ++ B) := by
  intro A
  induction A with
  | nil =>
    intro B h
    simp only [List.nil_append]
    exact List.insertionSort_cons idxLe
      (fun b hb => Nat.le_of_lt (h b (by simpa using hb)))
  | cons a A' ih =>
    intro B h
    simp only [List.cons_append, List.insertionSort, List.append_eq]
    rw [ih B (fun y hy => h y (List.mem_cons_of_mem a hy))]
    have hax : ¬ idxLe a x := by
      have := h a (List.mem_cons_self a _)
      simp only [idxLe]
      omega
    simp only [List.orderedInsert]
    rw [if_neg hax]

/-- Core of the order-preservation argument: deduplicating the email rows and
the no-email rows separately, each under its own key, and re-sorting the
survivors by original index is the same as one first-occurrence scan of the
indexed list under the combined identity key.  `s` is the combined seen set
corresponding to the per-partition seen sets `s1`, `s2`. -/
theorem partition_scan_eq :
    ∀ (l : List (Nat × CandRow)) (s1 : List (String × String))
      (s2 : List (String × String × String))
      (s : List ((String × String) ⊕ (String × String × String))),
      l.Pairwise (fun a b => a.1 < b.1) →
      (∀ k, Sum.inl k ∈ s ↔ k ∈ s1) →
      (∀ k, Sum.inr k ∈ s ↔ k ∈ s2) →
      List.insertionSort idxLe
        (firstOccAux (fun p => keyE p.2) (l.filter (fun p => hasEmail p.2)) s1
          ++ firstOccAux (fun p => keyN p.2) (l.filter (fun p => !hasEmail p.2)) s2)
      = firstOccAux (fun p => rowKey p.2) l s := by
  intro l
  induction l with
  | nil => intro s1 s2 s _ _ _; simp [firstOccAux]
  | cons x tl ih =>
    intro s1 s2 s hl h1 h2
    rw [List.pairwise_cons] at hl
    obtain ⟨hmin, htl⟩ := hl
    by_cases hb : hasEmail x.2
    · have hfe : List.filter (fun p => hasEmail p.2) (x :: tl)
          = x :: List.filter (fun p => hasEmail p.2) tl :=
        List.filter_cons_of_pos hb
      have hfn : List.filter (fun p => !hasEmail p.2) (x :: tl)
          = List.filter (fun p => !hasEmail p.2) tl :=
        List.filter_cons_of_neg (by simp [hb])
      have hkx : rowKey x.2 = Sum.inl (keyE x.2) := by simp [rowKey, hb]
      rw [hfe, hfn, firstOccAux, firstOccAux]
      by_cases hk : keyE x.2 ∈ s1
      · rw [if_pos hk, if_pos (show (fun p => rowKey p.2) x ∈ s by
          simp only [hkx]; exact (h1 _).mpr hk)]
        exact ih s1 s2 s htl h1 h2
      · rw [if_neg hk, if_neg (show ¬ (fun p => rowKey p.2) x ∈ s by
          simp only [hkx]; exact fun hc => hk ((h1 _).mp hc))]
        rw [List.cons_append]
        have hm : ∀ y ∈ (firstOccAux (fun p => keyE p.2)
              (List.filter (fun p => hasEmail p.2) tl) (keyE x.2 :: s1)
            ++ firstOccAux (fun p => keyN p.2)
              (List.filter (fun p => !hasEmail p.2) tl) s2), idxLe x y := by
          intro y hy
          rcases List.mem_append.mp hy with hc | hc
          · exact Nat.le_of_lt
              (hmin y (List.mem_of_mem_filter (mem_of_mem_firstOccAux _ _ _ hc)))
          · exact Nat.le_of_lt
              (hmin y (List.mem_of_mem_filter (mem_of_mem_firstOccAux _ _ _ hc)))
        rw [List.insertionSort_cons idxLe hm]
        congr 1
        rw [hkx]
        refine ih (keyE x.2 :: s1) s2 (Sum.inl (keyE x.2) :: s) htl ?_ ?_
        · intro k; simp [List.mem_cons, h1]
        · intro k; simp [List.mem_cons, h2]
    · have hb' : hasEmail x.2 = false := by
        revert hb; cases hasEmail x.2 <;> simp
      have hfe : List.filter (fun p => hasEmail p.2) (x :: tl)
          = List.filter (fun p => hasEmail p.2) tl :=
        List.filter_cons_of_neg (by simp [hb'])
      have hfn : List.filter (fun p => !hasEmail p.2) (x :: tl)
          = x :: List.filter (fun p => !hasEmail p.2) tl :=
        List.filter_cons_of_pos (by simp [hb'])
      have hkx : rowKey x.2 = Sum.inr (keyN x.2) := by simp [rowKey, hb']
      rw [hfe, hfn, firstOccAux, firstOccAux]
      by_cases hk : keyN x.2 ∈ s2
      · rw [if_pos hk, if_pos (show (fun p => rowKey p.2) x ∈ s by
          simp only [hkx]; exact (h2 _).mpr hk)]
        exact ih s1 s2 s htl h1 h2
      · rw [if_neg hk, if_neg (show ¬ (fun p => rowKey p.2) x ∈ s by
          simp only [hkx]; exact fun hc => hk ((h2 _).mp hc))]
        rw [insertionSort_cons_middle x
          (firstOccAux (fun p => keyE p.2) (List.filter (fun p => hasEmail p.2) tl) s1)
          (firstOccAux (fun p => keyN p.2)
            (List.filter (fun p => !hasEmail p.2) tl) (keyN x.2 :: s2))
          ?hmin₂]
        case hmin₂ =>
          intro y hy
          rcases List.mem_append.mp hy with hc | hc
          · exact hmin y (List.mem_of_mem_filter (mem_of_mem_firstOccAux _ _ _ hc))
          · exact hmin y (List.mem_of_mem_filter (mem_of_mem_firstOccAux _ _ _ hc))
        congr 1
        rw [hkx]
        refine ih s1 (keyN x.2 :: s2) (Sum.inr (keyN x.2) :: s) htl ?_ ?_
        · intro k; simp [List.mem_cons, h1]
        · intro k; simp [List.mem_cons, h2]

/-- The partitioned deduplication of the source is exactly the single
first-occurrence scan of the rows under the combined identity key. -/
theorem dedup_eq_scan (rows : List CandRow) :
    deduplicate_candidates rows = dropDupFirst rowKey rows := by
  by_cases h : rows = []
  · subst h; rfl
  · simp only [deduplicate_candidates, if_neg h, dropDupFirst]
    rw [partition_scan_eq rows.enum [] [] [] ?pw ?ha ?hb]
    case pw =>
      have hr := List.pairwise_lt_range rows.length
      rw [← List.enum_map_fst] at hr
      exact List.pairwise_map.mp hr
    case ha => intro k; simp
    case hb => intro k; simp
    rw [firstOccAux_map_snd, List.enum_map_snd]

/-- A first-occurrence scan does not change which element `find?` returns for
any key not already marked as seen: the first element with that key
survives the scan in place. -/
theorem find?_firstOccAux {α κ : Type} [DecidableEq κ] (K : α → κ) (k : κ) :
    ∀ (l : List α) (seen : List κ), k ∉ seen →
      List.find? (fun s => decide (K s = k)) (firstOccAux K l seen)
        = List.find? (fun s => decide (K s = k)) l := by
  intro l
  induction l with
  | nil => intro seen _; rfl
  | cons x xs ih =>
    intro seen hks
    rw [firstOccAux]
    by_cases hx : K x ∈ seen
    · rw [if_pos hx]
      have hne : ¬ (K x = k) := fun he => hks (he ▸ hx)
      rw [List.find?_cons_of_neg _ (by simpa using hne), ih seen hks]
    · rw [if_neg hx]
      by_cases he : K x = k
      · rw [List.find?_cons_of_pos _ (by simpa using he),
            List.find?_cons_of_pos _ (by simpa using he)]
      · rw [List.find?_cons_of_neg _ (by simpa using he),
            List.find?_cons_of_neg _ (by simpa using he)]
        refine ih (K x :: seen) ?_
        intro hc
        rcases List.mem_cons.mp hc with hc | hc
        · exact he hc.symm
        · exact hks hc

/-- When the first list already contains a match, `find?` over the
concatenation returns it. -/
theorem find?_append_left {α : Type} (p : α → Bool) (l₁ l₂ : List α)
    (h : (l₁.find? p).isSome) : (l₁ ++ l₂).find? p = l₁.find? p := by
  rw [List.find?_append]
  cases hf : l₁.find? p with
  | none => rw [hf] at h; simp at h
  | some v => simp

/-! ### Run-collapsing lemmas for the shard-naming slug -/

/-- Every character of a collapsed string is the replacement character or a
run-free character of the input. -/
theorem mem_collapseRunsAux (p : Char → Bool) (rep : Char) :
    ∀ (l : List Char) (b : Bool) (c : Char),
      c ∈ collapseRunsAux p rep b l → c = rep ∨ (c ∈ l ∧ p c = false) := by
  intro l
  induction l with
  | nil => intro b c hc; simp [collapseRunsAux] at hc
  | cons d cs ih =>
    intro b c hc
    rw [collapseRunsAux] at hc
    by_cases hd : p d
    · rw [if_pos hd] at hc
      cases b with
      | true =>
        rw [if_pos rfl] at hc
        rcases ih true c hc with h | ⟨h, hp⟩
        · exact Or.inl h
        · exact Or.inr ⟨List.mem_cons_of_mem d h, hp⟩
      | false =>
        rw [if_neg (by simp)] at hc
        rcases List.mem_cons.mp hc with h | h
        · exact Or.inl h
        · rcases ih true c h with h' | ⟨h', hp⟩
          · exact Or.inl h'
          · exact Or.inr ⟨List.mem_cons_of_mem d h', hp⟩
    · rw [if_neg hd] at hc
      rcases List.mem_cons.mp hc with h | h
      · exact Or.inr ⟨h ▸ List.mem_cons_self d cs, h ▸ Bool.eq_false_iff.mpr hd⟩
      · rcases ih false c h with h' | ⟨h', hp⟩
        · exact Or.inl h'
        · exact Or.inr ⟨List.mem_cons_of_mem d h', hp⟩

/-- While inside a run, the next character the collapser emits never
satisfies `p`. -/
theorem head_collapseRunsAux (p : Char → Bool) (rep : Char) :
    ∀ (l : List Char) (c : Char),
      (collapseRunsAux p rep true l).head? = some c → p c = false := by
  intro l
  induction l with
  | nil => intro c hc; simp [collapseRunsAux] at hc
  | cons d cs ih =>
    intro c hc
    rw [collapseRunsAux] at hc
    by_cases hd : p d
    · rw [if_pos hd, if_pos rfl] at hc
      exact ih c hc
    · rw [if_neg hd] at hc
      simp only [List.head?_cons, Option.some.injEq] at hc
      exact hc ▸ Bool.eq_false_iff.mpr hd

/-- The collapser never emits two adjacent characters that both satisfy `p`. -/
theorem chain'_collapseRunsAux (p : Char → Bool) (rep : Char) :
    ∀ (l : List Char) (b : Bool),
      List.Chain' (fun a c => ¬(p a = true ∧ p c = true)) (collapseRunsAux p rep b l) := by
  intro l
  induction l with
  | nil => intro b; simp [collapseRunsAux]
  | cons d cs ih =>
    intro b
    rw [collapseRunsAux]
    by_cases hd : p d
    · rw [if_pos hd]
      cases b with
      | true => rw [if_pos rfl]; exact ih true
      | false =>
        rw [if_neg (by simp)]
        rw [List.chain'_cons']
        refine ⟨?_, ih true⟩
        intro y hy
        have hpy : p y = false := head_collapseRunsAux p rep cs y (Option.mem_def.mp hy)
        intro hcon
        rw [hpy] at hcon
        exact Bool.false_ne_true hcon.2
    · rw [if_neg hd]
      rw [List.chain'_cons']
      refine ⟨?_, ih false⟩
      intro y _ hcon
      exact hd hcon.1

/-- C7: the shard-naming function composes exactly
`results/results_<slug>.csv`, where the slug contains only letters, digits
and underscores (everything else stripped, whitespace runs turned into
underscores) and never two adjacent underscores; as a total Lean function of
the partition key it is pure and deterministic, so equal inputs yield equal
paths. -/
theorem c7_shard_naming (jobPosition : String) :
    get_results_filename jobPosition
        = ("results/results_") ++ String.mk (slugChars jobPosition) ++ (".csv")
      ∧ (slugChars jobPosition).all (fun c => c.isAlphanum || c == '_') = true
      ∧ List.Chain' (fun a b => ¬(a = '_' ∧ b = '_')) (slugChars jobPosition) := by
  refine ⟨rfl, ?_, ?_⟩
  · rw [List.all_eq_true]
    intro c hc
    simp only [slugChars, collapseRuns] at hc
    rcases mem_collapseRunsAux _ _ _ _ _ hc with h | ⟨h2, _⟩
    · simp [h]
    · rcases mem_collapseRunsAux _ _ _ _ _ h2 with h | ⟨h1, hw⟩
      · simp [h]
      · have hp := (List.mem_filter.mp h1).2
        simp only [hw, Bool.or_false] at hp
        exact hp
  · simp only [slugChars, collapseRuns]
    exact List.Chain'.imp
      (fun a b hR hab => hR ⟨by simp [hab.1], by simp [hab.2]⟩)
      (chain'_collapseRunsAux (fun c => c == '_') '_' _ false)

/-- C9: deduplication preserves the original relative order of the surviving
rows — the output equals the single left-to-right first-occurrence scan of
the input under the combined identity key, and in particular is a
subsequence of the input, even though rows with and without emails are
deduplicated in separate passes. -/
theorem c9_dedup_preserves_order (rows : List CandRow) :
    deduplicate_candidates rows = dropDupFirst rowKey rows
      ∧ List.Sublist (deduplicate_candidates rows) rows :=
  ⟨dedup_eq_scan rows, by
    rw [dedup_eq_scan]
    exact firstOccAux_sublist rowKey rows []⟩

/-- C2: the merge performed by append concatenates existing rows before
incoming rows and keeps only the first occurrence per identity key
(first-write-wins), so for every identity key already stored, appending
another row with that key leaves the row found under the key — all its
fields — unchanged. -/
theorem c2_first_write_wins (old incoming : List CandRow) (r : CandRow)
    (hr : r ∈ old) :
    mergeExisting (some (CsvData.rows old)) incoming
        = deduplicate_candidates (old ++ incoming)
      ∧ List.find? (fun s => decide (rowKey s = rowKey r))
            (deduplicate_candidates (old ++ incoming))
          = List.find? (fun s => decide (rowKey s = rowKey r)) old := by
  have hold : old ≠ [] := by
    rintro rfl
    exact (List.not_mem_nil r) hr
  have hemp : old.isEmpty = false := by simp [List.isEmpty_iff, hold]
  constructor
  · simp [mergeExisting, hemp]
  · rw [dedup_eq_scan, dropDupFirst, find?_firstOccAux _ _ _ [] (by simp)]
    apply find?_append_left
    rw [List.find?_isSome]
    exact ⟨r, hr, by simp⟩

/-- Witness for C2 at a concrete input: `jane2` carries the same identity key
as the stored `jane`, and the merged shard still resolves that key to
`jane`. -/
theorem c2_first_write_wins_witness :
    mergeExisting (some (CsvData.rows [jane])) [jane2]
        = deduplicate_candidates ([jane] ++ [jane2])
      ∧ List.find? (fun s => decide (rowKey s = rowKey jane))
            (deduplicate_candidates ([jane] ++ [jane2]))
          = List.find? (fun s => decide (rowKey s = rowKey jane)) [jane] :=
  c2_first_write_wins [jane] [jane2] jane (by decide)

/-- Every payload the update loop PUTs is the pre-encoded one. -/
theorem updLoop_puts (payload : String) :
    ∀ (fuel attempt : Nat) (trace : List (AttemptStep CandRow)),
      ∀ b ∈ (updLoop payload fuel attempt trace).puts, b = payload := by
  intro fuel
  induction fuel with
  | zero => intro attempt trace b hb; simp [updLoop] at hb
  | succ n ih =>
    intro attempt trace b hb
    cases trace with
    | nil => simp [updLoop] at hb
    | cons step rest =>
      cases step with
      | timeoutExc =>
        by_cases hn : n = 0
        · simp [updLoop, hn] at hb
        · simp only [updLoop, if_neg hn] at hb
          exact ih (attempt + 1) rest b hb
      | netExc =>
        by_cases hn : n = 0
        · simp [updLoop, hn] at hb
        · simp only [updLoop, if_neg hn] at hb
          exact ih (attempt + 1) rest b hb
      | otherExc => simp [updLoop] at hb
      | normal g raw put =>
        cases g with
        | unauthorized => simp [updLoop] at hb
        | ok sha size inline =>
          cases put with
          | ok => simpa [updLoop] using hb
          | conflict =>
            by_cases hn : n = 0
            · simpa [updLoop, hn] using hb
            · simp only [updLoop, if_neg hn] at hb
              rcases List.mem_cons.mp hb with h | h
              · exact h
              · exact ih (attempt + 1) rest b h
          | err code => simpa [updLoop] using hb
        | notFound =>
          cases put with
          | ok => simpa [updLoop] using hb
          | conflict =>
            by_cases hn : n = 0
            · simpa [updLoop, hn] using hb
            · simp only [updLoop, if_neg hn] at hb
              rcases List.mem_cons.mp hb with h | h
              · exact h
              · exact ih (attempt + 1) rest b h
          | err code => simpa [updLoop] using hb
        | otherErr code =>
          cases put with
          | ok => simpa [updLoop] using hb
          | conflict =>
            by_cases hn : n = 0
            · simpa [updLoop, hn] using hb
            · simp only [updLoop, if_neg hn] at hb
              rcases List.mem_cons.mp hb with h | h
              · exact h
              · exact ih (attempt + 1) rest b h
          | err code => simpa [updLoop] using hb

/-- C1 counterexample: with an existing oversized shard (size 1,000,001 >
the 1,000,000-byte inline limit) whose raw-bytes fetch fails (HTTP 500), the
append does **not** abort: it logs the critical data-loss message, proceeds,
PUTs the deduplicated incoming rows over the existing shard, and returns
success — refuting "aborts ... and performs no write". -/
theorem c1_oversized_raw_failure_counterexample :
    (save_results_to_github (some [jane]) RESULTS_COLUMNS none none true
        [AttemptStep.normal (GetResp.ok ("sha1") 1000001 none)
          (RawResp.err 500) PutResp.ok]).dataLossLogged = true
  ∧ (save_results_to_github (some [jane]) RESULTS_COLUMNS none none true
        [AttemptStep.normal (GetResp.ok ("sha1") 1000001 none)
          (RawResp.err 500) PutResp.ok]).puts = [[jane]]
  ∧ (save_results_to_github (some [jane]) RESULTS_COLUMNS none none true
        [AttemptStep.normal (GetResp.ok ("sha1") 1000001 none)
          (RawResp.err 500) PutResp.ok]).ok = true := by
  decide

/-- C1 amended: when the existing shard is oversized and the raw-bytes fetch
fails, the append logs the critical "data loss may occur" error but does not
abort — it continues with only the incoming rows, deduplicates them, issues
the PUT (overwriting the shard known to exist), and reports the PUT's
outcome as success. -/
theorem c1_oversized_raw_failure_amended (r : CandRow) (rest : List CandRow)
    (sha : String) (size e : Nat) (hsz : size > GITHUB_CONTENTS_API_SIZE_LIMIT) :
    (save_results_to_github (some (r :: rest)) RESULTS_COLUMNS none none true
        [AttemptStep.normal (GetResp.ok sha size none) (RawResp.err e) PutResp.ok]).dataLossLogged
      = true
  ∧ (save_results_to_github (some (r :: rest)) RESULTS_COLUMNS none none true
        [AttemptStep.normal (GetResp.ok sha size none) (RawResp.err e) PutResp.ok]).puts
      = [deduplicate_candidates (r :: rest)]
  ∧ (save_results_to_github (some (r :: rest)) RESULTS_COLUMNS none none true
        [AttemptStep.normal (GetResp.ok sha size none) (RawResp.err e) PutResp.ok]).ok
      = true := by
  have hs : decide (size > GITHUB_CONTENTS_API_SIZE_LIMIT) = true := decide_eq_true hsz
  have h2 : ("Job Position") ∈ RESULTS_COLUMNS := by decide
  have h3 : ("Candidate Name") ∈ RESULTS_COLUMNS := by decide
  refine ⟨?_, ?_, ?_⟩ <;>
    simp [save_results_to_github, saveLoop, mergeExisting, hs, h2, h3]

/-- Witness for C1 amended at a concrete oversized shard. -/
theorem c1_oversized_raw_failure_witness :
    (save_results_to_github (some (jane :: [])) RESULTS_COLUMNS none none true
        [AttemptStep.normal (GetResp.ok ("sha9") 2000000 none) (RawResp.err 502) PutResp.ok]).dataLossLogged
      = true
  ∧ (save_results_to_github (some (jane :: [])) RESULTS_COLUMNS none none true
        [AttemptStep.normal (GetResp.ok ("sha9") 2000000 none) (RawResp.err 502) PutResp.ok]).puts
      = [deduplicate_candidates (jane :: [])]
  ∧ (save_results_to_github (some (jane :: [])) RESULTS_COLUMNS none none true
        [AttemptStep.normal (GetResp.ok ("sha9") 2000000 none) (RawResp.err 502) PutResp.ok]).ok
      = true :=
  c1_oversized_raw_failure_amended jane [] ("sha9") 2000000 502 (by decide)

/-- C3 counterexample: under three consecutive 409 conflicts, the append path
sleeps exactly 1000 ms before each retry — the second wait equals the first,
deterministically, so the delay neither grows exponentially nor carries
jitter; the replace path sleeps the deterministic sequence 500 ms, 1000 ms,
jitter-free and uncapped.  This refutes "waits with exponential backoff
(with cap and jitter)" as a description of the code. -/
theorem c3_conflict_retry_counterexample :
    (save_results_to_github (some [jane]) RESULTS_COLUMNS none none true
        [conflictAttempt ("s1"), conflictAttempt ("s2"), conflictAttempt ("s3")]).sleeps
      = [1000, 1000]
  ∧ (update_results_in_github (some [jane]) RESULTS_COLUMNS none none true
        [conflictAttempt ("s1"), conflictAttempt ("s2"), conflictAttempt ("s3")]).sleeps
      = [500, 1000] := by
  decide

/-- C3 amended: on 409 conflicts both writers retry from the read step with
at most 3 attempts total, and a conflict on the final attempt is surfaced
as failure; a 401 aborts immediately after the single GET with no PUT and no
sleep.  The waits, however, are a fixed 1 s in the append path and
0.5 s · 2^attempt in the replace path — neither capped nor jittered. -/
theorem c3_conflict_retry_amended (r : CandRow) (rest : List CandRow) (s1 s2 s3 : String) :
    (save_results_to_github (some (r :: rest)) RESULTS_COLUMNS none none true
        [conflictAttempt s1, conflictAttempt s2, conflictAttempt s3]).ok = false
  ∧ (save_results_to_github (some (r :: rest)) RESULTS_COLUMNS none none true
        [conflictAttempt s1, conflictAttempt s2, conflictAttempt s3]).sleeps = [1000, 1000]
  ∧ (save_results_to_github (some (r :: rest)) RESULTS_COLUMNS none none true
        [conflictAttempt s1, conflictAttempt s2, conflictAttempt s3]).puts.length = 3
  ∧ (save_results_to_github (some (r :: rest)) RESULTS_COLUMNS none none true
        [authAttempt]).ok = false
  ∧ (save_results_to_github (some (r :: rest)) RESULTS_COLUMNS none none true
        [authAttempt]).gets = 1
  ∧ (save_results_to_github (some (r :: rest)) RESULTS_COLUMNS none none true
        [authAttempt]).puts = []
  ∧ (save_results_to_github (some (r :: rest)) RESULTS_COLUMNS none none true
        [authAttempt]).sleeps = []
  ∧ (update_results_in_github (some (r :: rest)) RESULTS_COLUMNS none none true
        [conflictAttempt s1, conflictAttempt s2, conflictAttempt s3]).ok = false
  ∧ (update_results_in_github (some (r :: rest)) RESULTS_COLUMNS none none true
        [conflictAttempt s1, conflictAttempt s2, conflictAttempt s3]).sleeps = [500, 1000]
  ∧ (update_results_in_github (some (r :: rest)) RESULTS_COLUMNS none none true
        [conflictAttempt s1, conflictAttempt s2, conflictAttempt s3]).puts.length = 3
  ∧ (update_results_in_github (some (r :: rest)) RESULTS_COLUMNS none none true
        [authAttempt]).ok = false
  ∧ (update_results_in_github (some (r :: rest)) RESULTS_COLUMNS none none true
        [authAttempt]).gets = 1
  ∧ (update_results_in_github (some (r :: rest)) RESULTS_COLUMNS none none true
        [authAttempt]).puts = [] := by
  refine ⟨rfl, rfl, rfl, rfl, rfl, rfl, rfl, rfl, rfl, rfl, rfl, rfl, rfl⟩

/-- C4: a malformed shard or a NotFound shard in the listing is skipped, and
`load_all_results_from_github` returns exactly what it would return without
that shard — one corrupt shard never fails the whole read, which always
yields the merged union of the shards that did parse. -/
theorem c4_loadall_skips_bad_shards (pre post : List FetchRes) :
    load_all_results_from_github (some (pre ++ FetchRes.httpOk CsvData.malformed :: post))
        = load_all_results_from_github (some (pre ++ post))
  ∧ load_all_results_from_github (some (pre ++ FetchRes.httpErr 404 :: post))
        = load_all_results_from_github (some (pre ++ post))
  ∧ load_all_results_from_github (some (pre ++ FetchRes.netErr :: post))
        = load_all_results_from_github (some (pre ++ post)) := by
  refine ⟨?_, ?_, ?_⟩ <;>
    simp [load_all_results_from_github, List.filterMap_append, fetch_csv_from_url]

/-- C5 counterexample: `posX` has name "X" and jobId "J1".  Per the claim its
identity key is the jobId "J1", which does not match the identity "X", so
the row should survive — but the code filters by name and writes back the
empty list.  Moreover a 409 on the single PUT fails immediately after one
attempt, while the replace path under the same conflicting backend performs
three attempts — the delete is not inside the same conflict-retry wrapper. -/
theorem c5_remove_by_identity_counterexample :
    (delete_job_position_from_github ("X") true
        (GetResp.ok ("s") 10 (some (CsvData.rows [posX]))) PutResp.ok).puts = [[]]
  ∧ posX.jobId = ("J1")
  ∧ (delete_job_position_from_github ("X") true
        (GetResp.ok ("s") 10 (some (CsvData.rows [posX]))) PutResp.conflict).ok = false
  ∧ (delete_job_position_from_github ("X") true
        (GetResp.ok ("s") 10 (some (CsvData.rows [posX]))) PutResp.conflict).puts.length = 1
  ∧ (update_results_in_github (some [jane]) RESULTS_COLUMNS (some ("results/x.csv")) none true
        [conflictAttempt ("a"), conflictAttempt ("b"), conflictAttempt ("c")]).puts.length
      = 3 := by
  decide

/-- C5 amended: the delete performs a single read-filter-write with no retry
wrapper — a 409 on its one PUT is surfaced as failure immediately — and it
removes exactly the rows whose "Job Position" name equals the given name,
ignoring the jobId. -/
theorem c5_remove_by_identity_amended (jobPosition sha : String) (size : Nat)
    (rows : List PosRow) :
    (delete_job_position_from_github jobPosition true
        (GetResp.ok sha size (some (CsvData.rows rows))) PutResp.ok).ok = true
  ∧ (delete_job_position_from_github jobPosition true
        (GetResp.ok sha size (some (CsvData.rows rows))) PutResp.ok).puts
      = [rows.filter (fun r => r.position != jobPosition)]
  ∧ (delete_job_position_from_github jobPosition true
        (GetResp.ok sha size (some (CsvData.rows rows))) PutResp.conflict).ok = false
  ∧ (delete_job_position_from_github jobPosition true
        (GetResp.ok sha size (some (CsvData.rows rows))) PutResp.conflict).puts
      = [rows.filter (fun r => r.position != jobPosition)] := by
  refine ⟨rfl, rfl, rfl, rfl⟩

/-- C6 counterexample: the replace path does not validate identity columns —
with a frame whose columns lack "Candidate Name" (and every other identity
field except the position) but an explicit path, it makes the remote GET and
PUT and succeeds, refuting "fails fast ... and makes no remote request" for
inputs lacking required identity fields. -/
theorem c6_validation_counterexample :
    (update_results_in_github (some [jane]) [("Job Position")] (some ("results/x.csv"))
        none true [okAttempt]).gets = 1
  ∧ (update_results_in_github (some [jane]) [("Job Position")] (some ("results/x.csv"))
        none true [okAttempt]).ok = true := by
  decide

/-- C6 amended: append validates a `None` frame, an empty frame, and the
required identity columns before any request, and replace validates `None`
and empty frames likewise — in all those cases the outcome is the failure
outcome with zero requests and zero writes; but replace performs no
identity-column validation: given an explicit path it proceeds to the
network even when the identity columns are absent. -/
theorem c6_validation_amended (cols : List String) (p jp : Option String) (tok : Bool)
    (tr : List (AttemptStep CandRow)) (rows : List CandRow) (r : CandRow)
    (rest : List CandRow) (path : String) (hname : ("Candidate Name") ∉ cols) :
    save_results_to_github none cols p jp tok tr
        = ⟨false, none, 0, 0, [], [], false⟩
  ∧ save_results_to_github (some []) cols p jp tok tr
        = ⟨false, none, 0, 0, [], [], false⟩
  ∧ save_results_to_github (some rows) cols p jp tok tr
        = ⟨false, none, 0, 0, [], [], false⟩
  ∧ update_results_in_github none cols p jp tok tr = ⟨false, none, 0, [], []⟩
  ∧ update_results_in_github (some []) cols p jp tok tr = ⟨false, none, 0, [], []⟩
  ∧ (update_results_in_github (some (r :: rest)) cols (some path) jp true
        [okAttempt]).gets = 1 := by
  refine ⟨rfl, rfl, ?_, rfl, rfl, rfl⟩
  by_cases hre : rows.isEmpty = true
  · simp [save_results_to_github, hre]
  · simp [save_results_to_github, hre, hname]

/-- Witness for C6 amended at concrete inputs: a column list missing
"Candidate Name". -/
theorem c6_validation_witness :
    save_results_to_github none [("Job Position")] none none false []
        = ⟨false, none, 0, 0, [], [], false⟩
  ∧ save_results_to_github (some []) [("Job Position")] none none false []
        = ⟨false, none, 0, 0, [], [], false⟩
  ∧ save_results_to_github (some [jane]) [("Job Position")] none none false []
        = ⟨false, none, 0, 0, [], [], false⟩
  ∧ update_results_in_github none [("Job Position")] none none false []
        = ⟨false, none, 0, [], []⟩
  ∧ update_results_in_github (some []) [("Job Position")] none none false []
        = ⟨false, none, 0, [], []⟩
  ∧ (update_results_in_github (some (jane :: [])) [("Job Position")]
        (some ("results/x.csv")) none true [okAttempt]).gets = 1 :=
  c6_validation_amended [("Job Position")] none none false [] [jane] jane []
    ("results/x.csv") (by decide)

/-- C8: the replace path serialises its payload once, before the retry loop,
from the given rows alone — every PUT it ever issues carries that same byte
string, independent of the shard's prior remote content, so two replace
calls with the same rows write byte-identical content. -/
theorem c8_replace_idempotent (rows : List CandRow) (cols : List String)
    (path : String) (jp : Option String) (tok : Bool)
    (t1 t2 : List (AttemptStep CandRow)) :
    (∀ b ∈ (update_results_in_github (some rows) cols (some path) jp tok t1).puts,
        b = serializeCsv rows)
  ∧ (∀ b1 ∈ (update_results_in_github (some rows) cols (some path) jp tok t1).puts,
      ∀ b2 ∈ (update_results_in_github (some rows) cols (some path) jp tok t2).puts,
        b1 = b2) := by
  have key : ∀ (tr : List (AttemptStep CandRow)) (b : String),
      b ∈ (update_results_in_github (some rows) cols (some path) jp tok tr).puts →
        b = serializeCsv rows := by
    intro tr b hb
    by_cases hre : rows.isEmpty = true
    · simp [update_results_in_github, hre] at hb
    · cases tok with
      | false => simp [update_results_in_github, hre] at hb
      | true =>
        simp only [update_results_in_github, if_neg hre] at hb
        exact updLoop_puts (serializeCsv rows) 3 0 tr b hb
  exact ⟨fun b hb => key t1 b hb,
    fun b1 h1 b2 h2 => (key t1 b1 h1).trans (key t2 b2 h2).symm⟩

/-- Witness for C8: a successful concrete replace PUTs the serialised
payload, and applying the theorem to that PUT yields byte equality. -/
theorem c8_replace_idempotent_witness :
    serializeCsv [jane]
        ∈ (update_results_in_github (some [jane]) RESULTS_COLUMNS (some ("results/x.csv"))
            none true [okAttempt]).puts
  ∧ serializeCsv [jane] = serializeCsv [jane] := by
  have hm : serializeCsv [jane]
      ∈ (update_results_in_github (some [jane]) RESULTS_COLUMNS (some ("results/x.csv"))
          none true [okAttempt]).puts := by
    simp [update_results_in_github, updLoop, okAttempt]
  exact ⟨hm, (c8_replace_idempotent [jane] RESULTS_COLUMNS ("results/x.csv") none true
    [okAttempt] [okAttempt]).2 _ hm _ hm⟩

/-- C10: when append receives neither an explicit path nor a partition key,
the shard path comes from the "Job Position" cell of the first row of the
batch, and — shown here for a fresh shard — the whole batch, whatever mix of
positions its remaining rows hold, is written in that one shard. -/
theorem c10_default_shard_from_first_row (r : CandRow) (rest : List CandRow)
    (tok : Bool) (tr : List (AttemptStep CandRow)) :
    (save_results_to_github (some (r :: rest)) RESULTS_COLUMNS none none tok tr).path
        = some (get_results_filename r.position)
  ∧ (save_results_to_github (some (r :: rest)) RESULTS_COLUMNS none none true
      [AttemptStep.normal GetResp.notFound (RawResp.ok CsvData.empty) PutResp.ok]).puts
        = [r :: rest] := by
  constructor
  · cases tok <;> rfl
  · rfl
